import Mathlib

/-!
Verification development for the OneDrive downloads organizer
(`src/onedrive_ai_organizer.py`).

The Python source is shallowly embedded: pure helpers (`safe_filename`,
suggestion normalization) become Lean functions on `List Char` / `String`;
the item registry becomes an association list keyed by relative path;
the filesystem becomes a pair of maps (files and directories); external
effects (the Advisor HTTP call, `json.loads`, the preview parsing
libraries) become explicit oracle inputs describing their outcome, with
the control flow around them translated from the source.  Python floats
are modelled by `Rat` (the program only compares and clamps confidences;
no claim depends on IEEE rounding or on the special values inf and nan,
which the simple literal parser below treats as unparsable).
-/

namespace OneDriveOrganizer

/-! ## Character predicates and the `safe_filename` pipeline

Source lines 134-140:
```
def safe_filename(name: str) -> str:
    name = re.sub(PATTERN1, "_", name)      -- PATTERN1 matches < > : " / \ | ? * and 0x00-0x1F
    name = re.sub(WSRUN, " ", name).strip() -- WSRUN is a run of whitespace
    name = name.rstrip(" .")
    return name[:180] if len(name) > 180 else name
```
Whitespace is modelled by the ASCII fragment of the regex class (space,
tab, newline, carriage return, vertical tab, form feed); the control
characters among these are already replaced by the first substitution,
and no claim involves non-ASCII whitespace. -/

def isBadChar (c : Char) : Bool :=
  c = '<' || c = '>' || c = ':' || c = '"' || c = '/' || c = '\\' ||
  c = '|' || c = '?' || c = '*' || c.toNat < 0x20

def isPySpace (c : Char) : Bool :=
  c = ' ' || c = '\t' || c = '\n' || c = '\r' || c = '\x0b' || c = '\x0c'

/-- First substitution: each forbidden character becomes an underscore. -/
def sanitize1 (l : List Char) : List Char :=
  l.map (fun c => if isBadChar c then '_' else c)

/-- Second substitution: each maximal run of whitespace becomes one space.
The flag records whether the previous character was inside a run. -/
def collapseWSAux : Bool → List Char → List Char
  | _, [] => []
  | prevWS, c :: cs =>
    if isPySpace c then
      if prevWS then collapseWSAux true cs else ' ' :: collapseWSAux true cs
    else c :: collapseWSAux false cs

def collapseWS (l : List Char) : List Char := collapseWSAux false l

/-- Remove trailing characters satisfying `p` (Python rstrip). -/
def rstripBy (p : Char → Bool) (l : List Char) : List Char :=
  (l.reverse.dropWhile p).reverse

/-- Python `str.strip()` restricted to the modelled whitespace set. -/
def pyStrip (l : List Char) : List Char :=
  rstripBy isPySpace (l.dropWhile isPySpace)

def isDotSpace (c : Char) : Bool := c = ' ' || c = '.'

/-- The `safe_filename` pipeline before the final length truncation. -/
def safeStem (l : List Char) : List Char :=
  rstripBy isDotSpace (pyStrip (collapseWS (sanitize1 l)))

def safe_filename (l : List Char) : List Char :=
  (safeStem l).take 180

def safeFilenameStr (s : String) : String := String.mk (safe_filename s.data)

def pyStripStr (s : String) : String := String.mk (pyStrip s.data)

/-! ## `pathlib` stem and `str.endswith`, as used on suggested names -/

/-- Index of the last occurrence of `c`, or `-1` (Python `str.rfind`). -/
def pyRFind (l : List Char) (c : Char) : Int :=
  match l.reverse.findIdx? (· = c) with
  | some i => (l.length : Int) - 1 - (i : Int)
  | none => -1

/-- Index of the first occurrence of `c`, or `-1` (Python `str.find`). -/
def pyFind (l : List Char) (c : Char) : Int :=
  match l.findIdx? (· = c) with
  | some i => (i : Int)
  | none => -1

/-- `pathlib.PurePath(name).stem` for a single path component: the part
before the last dot, provided that dot is neither the first character
nor the last one; otherwise the whole name. -/
def pyStem (l : List Char) : List Char :=
  match l.reverse.findIdx? (· = '.') with
  | none => l
  | some ri =>
    let i := l.length - 1 - ri
    if 0 < i ∧ i < l.length - 1 then l.take i else l

def pyStemStr (s : String) : String := String.mk (pyStem s.data)

/-- `sug_name.lower().endswith(ext.lower())` from source line 355. -/
def endsWithCI (s e : String) : Bool :=
  (e.data.map Char.toLower).isSuffixOf (s.data.map Char.toLower)

/-! ## Python `float()` on JSON values, for confidence normalization

`conf = obj.get("confidence", 0.0)` may hand `float()` any JSON value.
`float()` accepts numbers, booleans and numeric strings and raises on
everything else; the string parser below covers plain decimal literals
with an optional sign (exponents and the special words are treated as
unparsable, which no claim exercises). -/

inductive JVal where
  | jnum (q : Rat)
  | jstr (s : String)
  | jbool (b : Bool)
  | jnull
  | jother
deriving Repr, DecidableEq

def digitsToNat (l : List Char) : Nat :=
  l.foldl (fun a c => a * 10 + (c.toNat - 48)) 0

def pyFloatOfString (s : String) : Option Rat :=
  let l := pyStrip s.data
  let signAndRest : Int × List Char :=
    match l with
    | '-' :: r => (-1, r)
    | '+' :: r => (1, r)
    | _ => (1, l)
  let sign := signAndRest.1
  let body := signAndRest.2
  let ip := body.takeWhile Char.isDigit
  let rest := body.dropWhile Char.isDigit
  match rest with
  | [] => if ip.isEmpty then none else some (sign * (digitsToNat ip : Int))
  | '.' :: fr =>
    let fp := fr.takeWhile Char.isDigit
    let rest2 := fr.dropWhile Char.isDigit
    if ¬ rest2.isEmpty then none
    else if ip.isEmpty ∧ fp.isEmpty then none
    else some ((sign : Rat) * ((digitsToNat ip : Rat) + (digitsToNat fp : Rat) / ((10 : Rat) ^ fp.length)))
  | _ => none

/-- Outcome of Python `float(v)`: `some` the value, or `none` when it raises. -/
def pyFloat : JVal → Option Rat
  | .jnum q => some q
  | .jstr s => pyFloatOfString s
  | .jbool b => some (if b then 1 else 0)
  | .jnull => none
  | .jother => none

/-! ## Advisor suggestion normalization (`ollama_suggest`, source lines 293-376)

The HTTP request, HTTP-level errors and `json.loads` are external; they
are modelled by oracle inputs.  `AdvisorNet.netError` stands for any
exception raised by `requests.post` / `raise_for_status` / `r.json()`
(network error, timeout, bad status, undecodable body); in the source
these exceptions are not caught anywhere inside `ollama_suggest` or its
caller, which the `Except` result type records.  `AdvisorNet.ok resp`
carries the `response` field of the body (already defaulted to the empty
string when absent, as `r.json().get("response", "")` does).

A parsed JSON object is modelled by the four fields the source reads,
each `none` when the key is absent.  The name and folder fields are
modelled as strings and the reason field as a string (the source would
raise a `TypeError` inside `re.sub` on a non-string suggested name,
which no claim exercises); the confidence field keeps the full JSON
value shape since `float()` is applied to it. -/

def ALLOWED_FOLDERS : List String := [
  "Finance/Invoices/2024",
  "Finance/Invoices/2025",
  "Finance/Taxes",
  "Finance/Contracts",
  "Work/IT",
  "Work/Docs",
  "Work/Clients",
  "Dev/Docs",
  "Dev/Assets",
  "Dev/Tools",
  "Design/AI",
  "Design/PSD",
  "Design/SVG",
  "Media/Images",
  "Media/Screenshots",
  "Installers",
  "_ToSort"]

structure RawObj where
  suggested_name : Option String
  suggested_folder : Option String
  confidence : Option JVal
  reason : Option String
deriving Repr

structure Suggestion where
  suggested_name : String
  suggested_folder : String
  confidence : Rat
  reason : String
deriving Repr, DecidableEq

inductive AdvisorNet where
  | netError
  | ok (resp : String)
deriving Repr

/-- Fallback returned when the response holds no brace-delimited text. -/
def fallbackNoJson (filename : String) : Suggestion :=
  ⟨filename, "_ToSort", 0, "Model did not return JSON."⟩

/-- Fallback returned when the brace-delimited text is not valid JSON. -/
def fallbackBadJson (filename : String) : Suggestion :=
  ⟨filename, "_ToSort", 0, "Could not parse model JSON."⟩

/-- Name normalization, source lines 354-356: sanitize, and when the
lowercased result does not end with the lowercased extension, force the
extension onto the sanitized stem. -/
def normSugName (rawName : Option String) (filename ext : String) : String :=
  let sugName := safeFilenameStr (rawName.getD filename)
  if endsWithCI sugName ext then sugName
  else safeFilenameStr (pyStemStr sugName ++ ext)

/-- Folder normalization, source lines 358-360. -/
def normFolder (rawFolder : Option String) (allowed : List String) : String :=
  let folder := rawFolder.getD "_ToSort"
  if folder ∈ allowed then folder else "_ToSort"

/-- Confidence normalization, source lines 362-367: default `0.0`, then
`float(conf)` with raises mapped to `0.0`, then clamp into `[0, 1]`. -/
def normConfidence (rawConf : Option JVal) : Rat :=
  let conf : Rat :=
    match rawConf with
    | none => 0
    | some v => (pyFloat v).getD 0
  max 0 (min 1 conf)

/-- Normalization of a parsed object, source lines 353-376. -/
def normalizeObj (filename ext : String) (allowed : List String) (obj : RawObj) : Suggestion :=
  { suggested_name := normSugName obj.suggested_name filename ext
    suggested_folder := normFolder obj.suggested_folder allowed
    confidence := normConfidence obj.confidence
    reason := String.mk ((pyStrip (obj.reason.getD "").data).take 300) }

/-- Python slice `l[a:b]` for the in-range indices used here. -/
def pySlice (l : List Char) (a b : Nat) : List Char := (l.drop a).take (b - a)

/-- The body of `ollama_suggest` after the preview and prompt are built.
`jparse` is the `json.loads` oracle, restricted to the modelled fields;
`none` means the parse raised. -/
def ollama_suggest (filename ext : String) (allowed : List String)
    (jparse : String → Option RawObj) (net : AdvisorNet) : Except Unit Suggestion :=
  match net with
  | .netError => .error ()
  | .ok resp =>
    let out := pyStrip resp.data
    let start := pyFind out '{'
    let stop := pyRFind out '}'
    if start = -1 ∨ stop = -1 ∨ stop ≤ start then .ok (fallbackNoJson filename)
    else
      let jtxt := String.mk (pySlice out start.toNat (stop.toNat + 1))
      match jparse jtxt with
      | none => .ok (fallbackBadJson filename)
      | some obj => .ok (normalizeObj filename ext allowed obj)

/-! ## The item registry

An item mirrors the per-file record built by `scan` (source lines
501-513) restricted to the fields the modelled operations read or
write; the registry key (the relative path) is carried beside the item
in an association list preserving insertion order, as a Python dict
does.  The scan-only `size` and `mtime` fields are omitted: no modelled
operation reads them. -/

inductive Status where
  | candidate
  | never
  | done
deriving Repr, DecidableEq

structure PreviewInfo where
  kind : String
  text : String
  notes : String
  size : Option Nat
  mtime : Option String
  hash : Option String
deriving Repr, DecidableEq

structure Item where
  name : String
  ext : String
  status : Status
  approved : Bool
  preview : Option PreviewInfo
  suggestion : Option Suggestion
  edited_name : String
  edited_folder : String
  done_dest : Option String
deriving Repr, DecidableEq

/-! ## Content extraction (`extract_preview`, source lines 153-290)

The format decoders (pdfplumber, python-docx, openpyxl, PIL, the json
module and the filesystem itself) are external; a `FileWorld` records
the outcome each of them would produce for the file at hand, `Except`
carrying the message of the exception a failing call raises.  The
dispatch on extension, the try/except placement, the truncation budgets
and the assembly of the preview text are translated from the source. -/

def MAX_TEXT_CHARS : Nat := 4000

/-- Core of the JSON summary: the shape `json.loads` returned. -/
inductive PyJson where
  | pobj (keys : List String)
  | parr (len : Nat) (firstTy : Option String)
  | pother (tyName : String)
deriving Repr, DecidableEq

structure FileWorld where
  statR : Except String (Nat × String)
  hashR : Except String String
  readTextR : Except String String
  jsonR : Option PyJson
  docxR : Except String (List String)
  xlsxR : Except String (List String × Option (List (Option String)))
  pdfR : Except String (List (Option String))
  imageR : Except String (Nat × Nat)
  svgTitleM : Option String

def takeStr (n : Nat) (s : String) : String := String.mk (s.data.take n)

/-- Python `repr` of a list of strings, as interpolated by an f-string
(quote escaping inside the strings is not modelled; no claim uses it). -/
def pyReprStrList (l : List String) : String :=
  "[" ++ String.intercalate ", " (l.map (fun s => "'" ++ s ++ "'")) ++ "]"

def sumLen (l : List String) : Nat := (l.map String.length).sum

/-- Accumulating loop shared by the docx and pdf branches: keep the
stripped nonempty pieces, stopping once their total length exceeds the
character budget (source lines 216-221 and 252-259). -/
def piecesLoop (acc : List String) : List String → List String
  | [] => acc
  | p :: rest =>
    let t := pyStripStr p
    let acc2 := if t = "" then acc else acc ++ [t]
    if sumLen acc2 > MAX_TEXT_CHARS then acc2 else piecesLoop acc2 rest

/-- The substitution on an svg title, source line 282: the pattern is a
raw string with a doubled backslash, so it replaces a literal backslash
followed by a run of the letter s (not whitespace). -/
def subBS : List Char → List Char
  | [] => []
  | '\\' :: 's' :: rest => ' ' :: subBS (rest.dropWhile (· = 's'))
  | c :: rest => c :: subBS rest
termination_by l => l.length
decreasing_by
  · simp only [List.length_cons]
    have := (List.dropWhile_sublist (l := rest) (· = 's')).length_le
    omega
  · simp [List.length_cons]

def extract_preview (ext : String) (w : FileWorld) : PreviewInfo :=
  let base : PreviewInfo :=
    { kind := "metadata", text := "", notes := "", size := none, mtime := none, hash := none }
  let info :=
    match w.statR with
    | .ok sm => { base with size := some sm.1, mtime := some sm.2 }
    | .error _ => base
  if ext ∈ [".exe", ".msi", ".dll"] then
    let i := { info with kind := "binary" }
    match w.hashR with
    | .ok h => { i with hash := some h }
    | .error e => { i with notes := "hash failed: " ++ e }
  else if ext ∈ [".zip", ".rar", ".7z"] then
    { info with kind := "archive" }
  else if ext ∈ [".ai", ".psd"] then
    { info with kind := "design" }
  else if ext ∈ [".txt", ".md", ".log", ".csv"] then
    let i := { info with kind := "text" }
    match w.readTextR with
    | .ok txt => { i with text := takeStr MAX_TEXT_CHARS txt }
    | .error e => { i with notes := "read failed: " ++ e }
  else if ext ∈ [".json"] then
    let i := { info with kind := "json" }
    match w.readTextR with
    | .error e => { i with notes := "read failed: " ++ e }
    | .ok raw =>
      match w.jsonR with
      | none => { i with text := takeStr MAX_TEXT_CHARS raw }
      | some (.pobj keys) =>
        { i with text := "JSON object keys: " ++ pyReprStrList (keys.take 60) }
      | some (.parr n t) =>
        { i with text := "JSON array length: " ++ toString n ++
            "; first item type: " ++ t.getD "empty" }
      | some (.pother ty) => { i with text := "JSON type: " ++ ty }
  else if ext ∈ [".docx"] then
    let i := { info with kind := "docx" }
    match w.docxR with
    | .ok paras =>
      { i with text := takeStr MAX_TEXT_CHARS (String.intercalate "\n"
          (piecesLoop [] (paras.take 80))) }
    | .error e => { i with notes := "docx parse failed: " ++ e }
  else if ext ∈ [".xlsx", ".xlsm"] then
    let i := { info with kind := "xlsx" }
    match w.xlsxR with
    | .error e => { i with notes := "xlsx parse failed: " ++ e }
    | .ok sb =>
      let sheets := sb.1.take 20
      let firstLine := "Sheets: " ++ pyReprStrList sheets
      if sheets.isEmpty then
        { i with text := takeStr MAX_TEXT_CHARS firstLine }
      else
        match sb.2 with
        | none => { i with notes := "xlsx parse failed: " }
        | some cells =>
          let header := (cells.filterMap id).map (takeStr 60)
          let lines :=
            if header.isEmpty then [firstLine]
            else [firstLine, "Header row: " ++ pyReprStrList (header.take 25)]
          { i with text := takeStr MAX_TEXT_CHARS (String.intercalate "\n" lines) }
  else if ext ∈ [".pdf"] then
    let i := { info with kind := "pdf" }
    match w.pdfR with
    | .ok pages =>
      let texts := piecesLoop []
        ((pages.take 3).map (fun t => String.mk (collapseWS (t.getD "").data)))
      { i with text := takeStr MAX_TEXT_CHARS (String.intercalate "\n" texts) }
    | .error e => { i with notes := "pdf parse failed: " ++ e }
  else if ext ∈ [".jpg", ".jpeg", ".png", ".webp"] then
    let i := { info with kind := "image" }
    match w.imageR with
    | .ok wh => { i with notes := toString wh.1 ++ "x" ++ toString wh.2 }
    | .error _ => i
  else if ext ∈ [".svg"] then
    let i := { info with kind := "svg" }
    match w.readTextR with
    | .error e => { i with notes := "svg read failed: " ++ e }
    | .ok raw =>
      match w.svgTitleM with
      | some g =>
        { i with text := takeStr MAX_TEXT_CHARS ("SVG title: " ++
            String.mk (pyStrip (subBS g.data))) }
      | none => { i with text := takeStr 800 raw }
  else info

/-! ## The suggestion batch (`suggest`, source lines 673-711)

The route loads the registry, walks the items in insertion order,
skips non-candidates and items that already carry a suggestion, fills
the preview lazily, calls `ollama_suggest`, stores the normalized
suggestion into the item, and stops after `limit` suggestions.  There
is no try/except around the Advisor call: an exception raised by it
propagates out of the loop and the updated registry is never saved,
which the `Except` result models (`error` leaves every item as loaded).
`pw` supplies the preview oracle per relative path and `net` the
network outcome per relative path. -/

/-- Item update on a freshly received suggestion, source lines 696-699. -/
def applySuggestion (it : Item) (sug : Suggestion) : Item :=
  { it with suggestion := some sug
            edited_name := sug.suggested_name
            edited_folder := sug.suggested_folder
            approved := decide ((0.75 : Rat) ≤ sug.confidence) }

def suggestLoop (allowed : List String) (jparse : String → Option RawObj)
    (pw : String → FileWorld) (net : String → AdvisorNet) :
    Nat → Nat → List (String × Item) → Except Unit (List (String × Item))
  | _, _, [] => .ok []
  | suggested, limit, (rel, it) :: rest =>
    if it.status ≠ Status.candidate ∨ it.suggestion ≠ none then
      (suggestLoop allowed jparse pw net suggested limit rest).map (fun r => (rel, it) :: r)
    else
      let it0 := if it.preview = none
        then { it with preview := some (extract_preview it.ext (pw rel)) } else it
      match ollama_suggest it0.name it0.ext allowed jparse (net rel) with
      | .error e => .error e
      | .ok sug =>
        let it2 := applySuggestion it0 sug
        if suggested + 1 ≥ limit then .ok ((rel, it2) :: rest)
        else (suggestLoop allowed jparse pw net (suggested + 1) limit rest).map
          (fun r => (rel, it2) :: r)

/-! ## Proposal edits (`update_proposals`, source lines 790-809)

For each candidate item carrying a suggestion, approval is set from the
posted checkbox list, the folder field is stored as posted without any
validation against the taxonomy, and the name field is re-sanitized. -/

def formGet (form : List (String × String)) (key dflt : String) : String :=
  match form.lookup key with
  | some v => v
  | none => dflt

def update_proposals (items : List (String × Item)) (apprList : List String)
    (form : List (String × String)) : List (String × Item) :=
  items.map (fun x =>
    if x.2.status ≠ Status.candidate ∨ x.2.suggestion = none then x
    else
      (x.1, { x.2 with
        approved := apprList.contains x.1
        edited_folder := formGet form ("folder__" ++ x.1) x.2.edited_folder
        edited_name := safeFilenameStr (formGet form ("name__" ++ x.1) x.2.edited_name) }))

/-! ## Bulk tagging (`bulk_set_status`, source lines 611-625)

Selected items are retagged candidate or never, except those already
done; retagging also clears approval. -/

def bulk_set_status (items : List (String × Item)) (new_status : String)
    (sels : List String) : List (String × Item) :=
  let ns := if new_status = "candidate" ∨ new_status = "never" then new_status else "candidate"
  let nsS : Status := if ns = "never" then Status.never else Status.candidate
  items.map (fun x =>
    if sels.contains x.1 ∧ x.2.status ≠ Status.done then
      (x.1, { x.2 with status := nsS, approved := false })
    else x)

/-! ## The filesystem model and the apply engine

The filesystem is a map from full paths to file contents plus a set of
directories; paths are joined syntactically with a slash, as
`pathlib`'s `/` does for the relative operands the program uses.
`mkdir(parents=True, exist_ok=True)` marks the root, the destination
directory and every intermediate stage as directories.  `shutil.move` /
`shutil.copy2` are modelled as succeeding exactly when the source file
exists, the dominant failure case; the except-branch of `apply_change`
turns any such failure into a reported error string. -/

structure FS where
  files : String → Option String
  dirs : String → Bool

def pjoin (a b : String) : String := a ++ "/" ++ b

def NEVER_OVERWRITE : Bool := true

def dirChain (folder : String) : List String :=
  (List.range (folder.splitOn "/").length).map
    (fun i => String.intercalate "/" ((folder.splitOn "/").take (i + 1)))

def mkdirParents (fs : FS) (root folder : String) : FS :=
  { fs with dirs := fun d =>
      if d = root ∨ d = pjoin root folder ∨ d ∈ (dirChain folder).map (pjoin root)
      then true else fs.dirs d }

def pexists (fs : FS) (p : String) : Bool := (fs.files p).isSome || fs.dirs p

structure OpOut where
  fs : FS
  ok : Bool
  dest : String
  err : String

/-- `apply_change`, source lines 379-395: make the destination
directory, refuse when something already exists at the destination
path, otherwise move or copy. -/
def apply_change (fs : FS) (root rel dest_folder new_name mode : String) : OpOut :=
  let src := pjoin root rel
  let dest_dir := pjoin root dest_folder
  let fs1 := mkdirParents fs root dest_folder
  let dest := pjoin dest_dir new_name
  if NEVER_OVERWRITE && pexists fs1 dest then
    ⟨fs1, false, dest, "Destination exists (overwrite disabled)."⟩
  else
    match fs1.files src with
    | none => ⟨fs1, false, dest, "FileNotFoundError: " ++ src⟩
    | some content =>
      if mode = "copy" then
        ⟨{ fs1 with files := fun p => if p = dest then some content else fs1.files p },
          true, dest, ""⟩
      else
        ⟨{ fs1 with files := fun p =>
            if p = dest then some content
            else if p = src then none else fs1.files p },
          true, dest, ""⟩

/-- Destination folder resolution, source line 825: Python `or` falls
back on the empty string. -/
def folderOf (it : Item) : String :=
  if it.edited_folder = "" then "_ToSort" else it.edited_folder

/-- New name resolution, source line 826. -/
def nameOf (it : Item) : String :=
  if it.edited_name = "" then it.name else it.edited_name

def destOf (root : String) (it : Item) : String :=
  pjoin (pjoin root (folderOf it)) (nameOf it)

structure AResult where
  rel : String
  dest : String
  ok : Bool
  err : String
  mode : String
deriving Repr, DecidableEq

structure BatchOut where
  fs : FS
  items : List (String × Item)
  results : List AResult

/-- The success-path item update, source lines 841-845. -/
def markDone (it : Item) (dest : String) : Item :=
  { it with status := Status.done, approved := false, done_dest := some dest }

/-- The `apply` route loop, source lines 819-846: every candidate and
approved item is attempted with `apply_change`; an attempt is recorded
in the results, and only on a successful attempt is the item marked
done, its approval cleared and its destination recorded. -/
def applyBatch (root mode : String) : FS → List (String × Item) → BatchOut
  | fs, [] => ⟨fs, [], []⟩
  | fs, (rel, it) :: rest =>
    if it.status ≠ Status.candidate then
      let t := applyBatch root mode fs rest
      ⟨t.fs, (rel, it) :: t.items, t.results⟩
    else if it.approved = false then
      let t := applyBatch root mode fs rest
      ⟨t.fs, (rel, it) :: t.items, t.results⟩
    else
      let step := apply_change fs root rel (folderOf it) (nameOf it) mode
      let it2 := if step.ok then markDone it step.dest else it
      let t := applyBatch root mode step.fs rest
      ⟨t.fs, (rel, it2) :: t.items, ⟨rel, step.dest, step.ok, step.err, mode⟩ :: t.results⟩

/-! ## Claim theorems -/

/-- Unfolding of `applyBatch` at an eligible (candidate and approved)
head item. -/
theorem applyBatch_cons_active
    (root mode rel : String) (it : Item) (rest : List (String × Item)) (fs : FS)
    (hc : it.status = Status.candidate) (ha : it.approved = true) :
    applyBatch root mode fs ((rel, it) :: rest) =
      ⟨(applyBatch root mode (apply_change fs root rel (folderOf it) (nameOf it) mode).fs rest).fs,
       (rel, if (apply_change fs root rel (folderOf it) (nameOf it) mode).ok
         then markDone it (apply_change fs root rel (folderOf it) (nameOf it) mode).dest
         else it) ::
         (applyBatch root mode (apply_change fs root rel (folderOf it) (nameOf it) mode).fs rest).items,
       ⟨rel, (apply_change fs root rel (folderOf it) (nameOf it) mode).dest,
         (apply_change fs root rel (folderOf it) (nameOf it) mode).ok,
         (apply_change fs root rel (folderOf it) (nameOf it) mode).err, mode⟩ ::
         (applyBatch root mode (apply_change fs root rel (folderOf it) (nameOf it) mode).fs
           rest).results⟩ := by
  simp only [applyBatch]
  rw [if_neg (by simp [hc]), if_neg (by simp [ha])]

/-- Unfolding of `applyBatch` at an ineligible head item. -/
theorem applyBatch_cons_skip
    (root mode rel : String) (it : Item) (rest : List (String × Item)) (fs : FS)
    (h : it.status ≠ Status.candidate ∨ it.approved = false) :
    applyBatch root mode fs ((rel, it) :: rest) =
      ⟨(applyBatch root mode fs rest).fs,
       (rel, it) :: (applyBatch root mode fs rest).items,
       (applyBatch root mode fs rest).results⟩ := by
  simp only [applyBatch]
  rcases h with h | h
  · rw [if_pos (by simp [h])]
  · by_cases hs : it.status = Status.candidate
    · rw [if_neg (by simp [hs]), if_pos h]
    · rw [if_pos (by simp [hs])]

/-- The refusal outcome of `apply_change` when the destination path
already holds a file. -/
theorem apply_change_refuses
    (root rel fol nn mode c : String) (fs : FS)
    (hex : fs.files (pjoin (pjoin root fol) nn) = some c) :
    apply_change fs root rel fol nn mode =
      ⟨mkdirParents fs root fol, false, pjoin (pjoin root fol) nn,
        "Destination exists (overwrite disabled)."⟩ := by
  have hpe : pexists (mkdirParents fs root fol) (pjoin (pjoin root fol) nn) = true := by
    unfold pexists
    have hfiles : (mkdirParents fs root fol).files = fs.files := rfl
    rw [hfiles, hex]
    simp
  unfold apply_change
  simp only [NEVER_OVERWRITE, Bool.true_and, hpe, if_true]

/-- C1: for an approved candidate item whose resolved destination path
already holds a file, the apply batch records a failure for that item,
keeps the item unchanged (so its status stays candidate), and hands the
rest of the batch a filesystem whose files are untouched (only the
destination directory chain was created); the refusal branch is taken
unconditionally for any such item at any position of any batch, since
`fs` and `rest` are arbitrary here. -/
theorem apply_overwrite_refusal
    (root mode rel p c : String) (it : Item) (rest : List (String × Item)) (fs : FS)
    (hc : it.status = Status.candidate) (ha : it.approved = true)
    (hex : fs.files (destOf root it) = some c) :
    (applyBatch root mode fs ((rel, it) :: rest)).results =
      AResult.mk rel (destOf root it) false "Destination exists (overwrite disabled)." mode ::
        (applyBatch root mode (mkdirParents fs root (folderOf it)) rest).results ∧
    (applyBatch root mode fs ((rel, it) :: rest)).items =
      (rel, it) :: (applyBatch root mode (mkdirParents fs root (folderOf it)) rest).items ∧
    (applyBatch root mode fs ((rel, it) :: rest)).fs =
      (applyBatch root mode (mkdirParents fs root (folderOf it)) rest).fs ∧
    (mkdirParents fs root (folderOf it)).files p = fs.files p := by
  rw [applyBatch_cons_active root mode rel it rest fs hc ha,
    apply_change_refuses root rel (folderOf it) (nameOf it) mode c fs hex]
  exact ⟨rfl, rfl, rfl, rfl⟩

def fsC1 : FS :=
  ⟨fun q => if q = "R/_ToSort/b.txt" then some "old"
    else if q = "R/a.txt" then some "src" else none,
   fun _ => false⟩

def itC1 : Item :=
  { name := "a.txt", ext := ".txt", status := Status.candidate, approved := true,
    preview := none, suggestion := none, edited_name := "b.txt", edited_folder := "",
    done_dest := none }

/-- Witness for C1 at a concrete registry and filesystem. -/
theorem apply_overwrite_refusal_witness :
    (applyBatch "R" "move" fsC1 [("a.txt", itC1)]).results =
      [AResult.mk "a.txt" (destOf "R" itC1) false
        "Destination exists (overwrite disabled)." "move"] ∧
    (applyBatch "R" "move" fsC1 [("a.txt", itC1)]).items =
      [("a.txt", itC1)] ∧
    (applyBatch "R" "move" fsC1 [("a.txt", itC1)]).fs =
      (applyBatch "R" "move" (mkdirParents fsC1 "R" (folderOf itC1)) []).fs ∧
    (mkdirParents fsC1 "R" (folderOf itC1)).files "R/a.txt" = fsC1.files "R/a.txt" := by
  have h := apply_overwrite_refusal "R" "move" "a.txt" "R/a.txt" "old" itC1 [] fsC1
    rfl rfl (by unfold fsC1 itC1 destOf folderOf nameOf pjoin; simp)
  exact ⟨by rw [h.1]; rfl, by rw [h.2.1]; rfl, h.2.2.1, h.2.2.2⟩

/-- C10: the destination directory is created before the overwrite
check runs, so even an attempt that ends in an overwrite refusal leaves
the destination directory behind, while no file (source or existing
destination) is modified. -/
theorem destdir_created_before_overwrite_check
    (root rel fol nn mode p c : String) (fs : FS)
    (hex : fs.files (pjoin (pjoin root fol) nn) = some c)
    (_hdir : fs.dirs (pjoin root fol) = false) :
    (apply_change fs root rel fol nn mode).ok = false ∧
    (apply_change fs root rel fol nn mode).fs.dirs (pjoin root fol) = true ∧
    (apply_change fs root rel fol nn mode).fs.files p = fs.files p := by
  rw [apply_change_refuses root rel fol nn mode c fs hex]
  refine ⟨rfl, ?_, rfl⟩
  simp [mkdirParents]

def fsC10 : FS :=
  ⟨fun q => if q = "R/Dev/Docs/b.txt" then some "old"
    else if q = "R/a.txt" then some "src" else none,
   fun _ => false⟩

/-- Witness for C10 at a concrete filesystem. -/
theorem destdir_created_before_overwrite_check_witness :
    (apply_change fsC10 "R" "a.txt" "Dev/Docs" "b.txt" "move").ok = false ∧
    (apply_change fsC10 "R" "a.txt" "Dev/Docs" "b.txt" "move").fs.dirs (pjoin "R" "Dev/Docs") = true ∧
    (apply_change fsC10 "R" "a.txt" "Dev/Docs" "b.txt" "move").fs.files "R/a.txt" =
      fsC10.files "R/a.txt" :=
  destdir_created_before_overwrite_check "R" "a.txt" "Dev/Docs" "b.txt" "move" "R/a.txt" "old"
    fsC10 (by unfold fsC10 pjoin; simp) rfl

/-- C6: an eligible (candidate, approved) item is marked done exactly
when its `apply_change` call reports success, and on success the done
marking records the destination and clears the approval. -/
theorem done_marked_iff_move_succeeds
    (root mode rel : String) (it : Item) (rest : List (String × Item)) (fs : FS)
    (hc : it.status = Status.candidate) (ha : it.approved = true) :
    (applyBatch root mode fs ((rel, it) :: rest)).items.head? =
      some (rel, if (apply_change fs root rel (folderOf it) (nameOf it) mode).ok
        then markDone it (apply_change fs root rel (folderOf it) (nameOf it) mode).dest
        else it) ∧
    (markDone it (apply_change fs root rel (folderOf it) (nameOf it) mode).dest).status
      = Status.done ∧
    (markDone it (apply_change fs root rel (folderOf it) (nameOf it) mode).dest).approved
      = false ∧
    (markDone it (apply_change fs root rel (folderOf it) (nameOf it) mode).dest).done_dest
      = some (apply_change fs root rel (folderOf it) (nameOf it) mode).dest := by
  rw [applyBatch_cons_active root mode rel it rest fs hc ha]
  exact ⟨rfl, rfl, rfl, rfl⟩

def fsC6 : FS :=
  ⟨fun q => if q = "R/a.txt" then some "src" else none, fun _ => false⟩

def itC6 : Item :=
  { name := "a.txt", ext := ".txt", status := Status.candidate, approved := true,
    preview := none, suggestion := none, edited_name := "b.txt",
    edited_folder := "Dev/Docs", done_dest := none }

/-- Witness for C6 at a concrete filesystem where the move succeeds. -/
theorem done_marked_iff_move_succeeds_witness :
    (applyBatch "R" "move" fsC6 [("a.txt", itC6)]).items.head? =
      some ("a.txt", if (apply_change fsC6 "R" "a.txt" (folderOf itC6) (nameOf itC6) "move").ok
        then markDone itC6 (apply_change fsC6 "R" "a.txt" (folderOf itC6) (nameOf itC6) "move").dest
        else itC6) ∧
    (markDone itC6 (apply_change fsC6 "R" "a.txt" (folderOf itC6) (nameOf itC6) "move").dest).status
      = Status.done ∧
    (markDone itC6 (apply_change fsC6 "R" "a.txt" (folderOf itC6) (nameOf itC6) "move").dest).approved
      = false ∧
    (markDone itC6 (apply_change fsC6 "R" "a.txt" (folderOf itC6) (nameOf itC6) "move").dest).done_dest
      = some (apply_change fsC6 "R" "a.txt" (folderOf itC6) (nameOf itC6) "move").dest :=
  done_marked_iff_move_succeeds "R" "move" "a.txt" itC6 [] fsC6 rfl rfl

/-- Helper: `bulk_set_status` returns a done item unchanged. -/
theorem mem_bulk_of_done (items : List (String × Item)) (ns : String) (sels : List String)
    (rel : String) (it : Item) (hmem : (rel, it) ∈ items) (hdone : it.status = Status.done) :
    (rel, it) ∈ bulk_set_status items ns sels := by
  unfold bulk_set_status
  refine List.mem_map.mpr ⟨(rel, it), hmem, ?_⟩
  simp [hdone]

/-- Helper: `applyBatch` returns an ineligible item unchanged. -/
theorem mem_applyBatch_of_skip (root mode : String) (items : List (String × Item)) (fs : FS)
    (rel : String) (it : Item) (hmem : (rel, it) ∈ items)
    (h : it.status ≠ Status.candidate ∨ it.approved = false) :
    (rel, it) ∈ (applyBatch root mode fs items).items := by
  induction items generalizing fs with
  | nil => cases hmem
  | cons hd tl ih =>
    obtain ⟨r0, i0⟩ := hd
    rcases List.mem_cons.mp hmem with heq | hmemtl
    · cases heq
      rw [applyBatch_cons_skip _ _ _ _ _ _ h]
      exact List.mem_cons_self _ _
    · by_cases h0 : i0.status = Status.candidate
      · by_cases ha0 : i0.approved = true
        · rw [applyBatch_cons_active root mode r0 i0 tl fs h0 ha0]
          exact List.mem_cons_of_mem _ (ih _ hmemtl)
        · rw [applyBatch_cons_skip _ _ _ _ _ _ (Or.inr (by simpa using ha0))]
          exact List.mem_cons_of_mem _ (ih _ hmemtl)
      · rw [applyBatch_cons_skip _ _ _ _ _ _ (Or.inl h0)]
        exact List.mem_cons_of_mem _ (ih _ hmemtl)

/-- Helper: one apply attempt is recorded per eligible item. -/
theorem applyBatch_results_length (root mode : String) (items : List (String × Item)) (fs : FS) :
    (applyBatch root mode fs items).results.length =
      (items.filter (fun x => decide (x.2.status = Status.candidate) && x.2.approved)).length := by
  induction items generalizing fs with
  | nil => rfl
  | cons hd tl ih =>
    obtain ⟨r0, i0⟩ := hd
    by_cases h0 : i0.status = Status.candidate
    · by_cases ha0 : i0.approved = true
      · rw [applyBatch_cons_active root mode r0 i0 tl fs h0 ha0]
        simp [List.filter_cons, h0, ha0, ih]
      · rw [applyBatch_cons_skip _ _ _ _ _ _ (Or.inr (by simpa using ha0))]
        simp [List.filter_cons, h0, ha0, ih]
    · rw [applyBatch_cons_skip _ _ _ _ _ _ (Or.inl h0)]
      simp [List.filter_cons, h0, ih]

/-- C5: the done status is terminal for the modelled operations: a done
item passes through `bulk_set_status` unchanged, done and never items
pass through the apply batch unchanged, and the apply batch attempts
exactly the items that are candidate and approved (one recorded result
each). -/
theorem done_is_terminal
    (new_status root mode : String) (sels : List String) (fs : FS)
    (items : List (String × Item)) (rel rel2 : String) (it it2 : Item)
    (hmem : (rel, it) ∈ items) (hdone : it.status = Status.done)
    (hmem2 : (rel2, it2) ∈ items) (hnev : it2.status = Status.never) :
    (rel, it) ∈ bulk_set_status items new_status sels ∧
    (rel, it) ∈ (applyBatch root mode fs items).items ∧
    (rel2, it2) ∈ (applyBatch root mode fs items).items ∧
    (applyBatch root mode fs items).results.length =
      (items.filter (fun x => decide (x.2.status = Status.candidate) && x.2.approved)).length :=
  ⟨mem_bulk_of_done items new_status sels rel it hmem hdone,
   mem_applyBatch_of_skip root mode items fs rel it hmem (Or.inl (by simp [hdone])),
   mem_applyBatch_of_skip root mode items fs rel2 it2 hmem2 (Or.inl (by simp [hnev])),
   applyBatch_results_length root mode items fs⟩

def itDone : Item :=
  { name := "d.txt", ext := ".txt", status := Status.done, approved := false,
    preview := none, suggestion := none, edited_name := "", edited_folder := "",
    done_dest := some "R/Dev/Docs/d.txt" }

def itNever : Item :=
  { name := "n.txt", ext := ".txt", status := Status.never, approved := false,
    preview := none, suggestion := none, edited_name := "", edited_folder := "",
    done_dest := none }

def itemsC5 : List (String × Item) := [("d.txt", itDone), ("n.txt", itNever)]

/-- Witness for C5 at a concrete registry holding a done and a never item. -/
theorem done_is_terminal_witness :
    ("d.txt", itDone) ∈ bulk_set_status itemsC5 "candidate" ["d.txt", "n.txt"] ∧
    ("d.txt", itDone) ∈ (applyBatch "R" "move" fsC6 itemsC5).items ∧
    ("n.txt", itNever) ∈ (applyBatch "R" "move" fsC6 itemsC5).items ∧
    (applyBatch "R" "move" fsC6 itemsC5).results.length =
      (itemsC5.filter (fun x => decide (x.2.status = Status.candidate) && x.2.approved)).length :=
  done_is_terminal "candidate" "R" "move" ["d.txt", "n.txt"] fsC6 itemsC5
    "d.txt" "n.txt" itDone itNever (by simp [itemsC5]) rfl (by simp [itemsC5]) rfl

/-- Unfolding of `suggestLoop` at a candidate head item without a
suggestion whose preview is already cached. -/
theorem suggestLoop_cons_fresh (allowed : List String) (jp : String → Option RawObj)
    (pw : String → FileWorld) (net : String → AdvisorNet) (s limit : Nat)
    (rel : String) (it : Item) (rest : List (String × Item))
    (h1 : it.status = Status.candidate) (h2 : it.suggestion = none)
    (hp : it.preview ≠ none) :
    suggestLoop allowed jp pw net s limit ((rel, it) :: rest) =
      match ollama_suggest it.name it.ext allowed jp (net rel) with
      | .error e => .error e
      | .ok sug =>
        if s + 1 ≥ limit then .ok ((rel, applySuggestion it sug) :: rest)
        else (suggestLoop allowed jp pw net (s + 1) limit rest).map
          (fun r => (rel, applySuggestion it sug) :: r) := by
  simp only [suggestLoop]
  rw [if_neg (by simp [h1, h2]), if_neg hp]

/-- C7: on a first suggestion for a candidate item, the edited name and
folder are initialized from the normalized suggestion and approval is
set exactly when the normalized confidence reaches 0.75. -/
theorem first_suggestion_initializes (allowed : List String) (jp : String → Option RawObj)
    (pw : String → FileWorld) (net : String → AdvisorNet) (s limit : Nat)
    (rel : String) (it : Item) (rest res : List (String × Item)) (sug : Suggestion)
    (h1 : it.status = Status.candidate) (h2 : it.suggestion = none)
    (hp : it.preview ≠ none)
    (hsug : ollama_suggest it.name it.ext allowed jp (net rel) = .ok sug)
    (hres : suggestLoop allowed jp pw net s limit ((rel, it) :: rest) = .ok res) :
    res.head? = some (rel, applySuggestion it sug) ∧
    (applySuggestion it sug).edited_name = sug.suggested_name ∧
    (applySuggestion it sug).edited_folder = sug.suggested_folder ∧
    ((applySuggestion it sug).approved = true ↔ (0.75 : Rat) ≤ sug.confidence) := by
  rw [suggestLoop_cons_fresh allowed jp pw net s limit rel it rest h1 h2 hp, hsug] at hres
  replace hres : (if s + 1 ≥ limit then Except.ok ((rel, applySuggestion it sug) :: rest)
      else Except.map (fun r => (rel, applySuggestion it sug) :: r)
        (suggestLoop allowed jp pw net (s + 1) limit rest)) = Except.ok res := hres
  refine ⟨?_, rfl, rfl, by simp [applySuggestion]⟩
  by_cases hl : s + 1 ≥ limit
  · rw [if_pos hl] at hres
    cases hres
    rfl
  · rw [if_neg hl] at hres
    cases hloop : suggestLoop allowed jp pw net (s + 1) limit rest with
    | error e => rw [hloop] at hres; cases hres
    | ok r => rw [hloop] at hres; cases hres; rfl

def objC7 : RawObj :=
  { suggested_name := some "Report 2024.pdf", suggested_folder := some "Work/Docs",
    confidence := some (JVal.jnum (9/10)), reason := some "dated report" }

def pvC7 : PreviewInfo :=
  { kind := "pdf", text := "Report 2024", notes := "", size := some 10,
    mtime := some "2024-01-01T00:00:00", hash := none }

def itC7 : Item :=
  { name := "a.pdf", ext := ".pdf", status := Status.candidate, approved := false,
    preview := some pvC7, suggestion := none, edited_name := "", edited_folder := "",
    done_dest := none }

def jpC7 : String → Option RawObj := fun _ => some objC7

def netC7 : String → AdvisorNet := fun _ => AdvisorNet.ok "\x7b json \x7d"

def pwC7 : String → FileWorld :=
  fun _ => ⟨.error "no stat", .error "no hash", .error "no read", none,
    .error "no docx", .error "no xlsx", .error "no pdf", .error "no image", none⟩

def sugC7 : Suggestion := normalizeObj "a.pdf" ".pdf" ALLOWED_FOLDERS objC7

/-- Witness for C7 at a concrete one-item batch. -/
theorem first_suggestion_initializes_witness :
    [("a.pdf", applySuggestion itC7 sugC7)].head? = some ("a.pdf", applySuggestion itC7 sugC7) ∧
    (applySuggestion itC7 sugC7).edited_name = sugC7.suggested_name ∧
    (applySuggestion itC7 sugC7).edited_folder = sugC7.suggested_folder ∧
    ((applySuggestion itC7 sugC7).approved = true ↔ (0.75 : Rat) ≤ sugC7.confidence) :=
  first_suggestion_initializes ALLOWED_FOLDERS jpC7 pwC7 netC7 0 1 "a.pdf" itC7 []
    [("a.pdf", applySuggestion itC7 sugC7)] sugC7 rfl rfl (by simp [itC7]) rfl rfl

/-- C8: a successfully returned suggestion always carries a confidence
inside the unit interval; on the parsed-object path a numeric raw
confidence is clamped into the interval and a missing or non-numeric
raw confidence (one on which the float conversion raises) becomes 0. -/
theorem confidence_clamped
    (f e : String) (allowed : List String) (jp : String → Option RawObj)
    (net : AdvisorNet) (sug : Suggestion) (obj : RawObj) (v : JVal) (q : Rat)
    (h : ollama_suggest f e allowed jp net = .ok sug)
    (hnn : pyFloat v = none) :
    (0 ≤ sug.confidence ∧ sug.confidence ≤ 1) ∧
    (normalizeObj f e allowed { obj with confidence := some (JVal.jnum q) }).confidence
      = max 0 (min 1 q) ∧
    (normalizeObj f e allowed { obj with confidence := none }).confidence = 0 ∧
    (normalizeObj f e allowed { obj with confidence := some v }).confidence = 0 := by
  refine ⟨?_, by simp [normalizeObj, normConfidence, pyFloat], ?_, ?_⟩
  · have hb : ∀ x : Rat, 0 ≤ max 0 (min 1 x) ∧ max 0 (min 1 x) ≤ 1 := by
      intro x
      exact ⟨le_max_left 0 _, max_le (by norm_num) (min_le_left 1 x)⟩
    cases net with
    | netError => simp [ollama_suggest] at h
    | ok resp =>
      simp only [ollama_suggest] at h
      by_cases hjs : pyFind (pyStrip resp.data) '{' = -1 ∨
          pyRFind (pyStrip resp.data) '}' = -1 ∨
          pyRFind (pyStrip resp.data) '}' ≤ pyFind (pyStrip resp.data) '{'
      · rw [if_pos hjs] at h
        cases h
        norm_num [fallbackNoJson]
      · rw [if_neg hjs] at h
        cases hp : jp (String.mk (pySlice (pyStrip resp.data)
            (pyFind (pyStrip resp.data) '{').toNat
            ((pyRFind (pyStrip resp.data) '}').toNat + 1))) with
        | none =>
          rw [hp] at h
          cases h
          norm_num [fallbackBadJson]
        | some obj2 =>
          rw [hp] at h
          cases h
          exact hb _
  · simp only [normalizeObj, normConfidence]
    norm_num
  · simp only [normalizeObj, normConfidence, hnn]
    norm_num

/-- Witness for C8 at a concrete response, with a non-numeric string
confidence as the unparsable value. -/
theorem confidence_clamped_witness :
    (0 ≤ sugC7.confidence ∧ sugC7.confidence ≤ 1) ∧
    (normalizeObj "a.pdf" ".pdf" ALLOWED_FOLDERS
      { objC7 with confidence := some (JVal.jnum (1/2)) }).confidence
      = max 0 (min 1 (1/2)) ∧
    (normalizeObj "a.pdf" ".pdf" ALLOWED_FOLDERS
      { objC7 with confidence := none }).confidence = 0 ∧
    (normalizeObj "a.pdf" ".pdf" ALLOWED_FOLDERS
      { objC7 with confidence := some (JVal.jstr "high") }).confidence = 0 :=
  confidence_clamped "a.pdf" ".pdf" ALLOWED_FOLDERS jpC7 (netC7 "a.pdf") sugC7 objC7
    (JVal.jstr "high") (1/2) rfl
    (by simp [pyFloat, pyFloatOfString, pyStrip, rstripBy, isPySpace])

def itB : Item :=
  { name := "b.txt", ext := ".txt", status := Status.candidate, approved := false,
    preview := some pvC7, suggestion := none, edited_name := "", edited_folder := "",
    done_dest := none }

def itA : Item :=
  { name := "a.txt", ext := ".txt", status := Status.candidate, approved := false,
    preview := some pvC7, suggestion := none, edited_name := "", edited_folder := "",
    done_dest := none }

def netC2 : String → AdvisorNet :=
  fun r => if r = "a.txt" then AdvisorNet.netError else AdvisorNet.ok "\x7b json \x7d"

/-- C2 counterexample: a network failure on the first item of a
two-candidate batch makes the whole suggestion run fail (the exception
from the Advisor call propagates out of the loop), so the second item
is never processed and no fallback suggestion is stored for either
item, contradicting the claim that such a failure is isolated to the
one item and never aborts the batch. -/
theorem advisor_net_error_aborts_batch_cex :
    suggestLoop ALLOWED_FOLDERS jpC7 pwC7 netC2 0 10 [("a.txt", itA), ("b.txt", itB)] =
      Except.error () := rfl

/-- C2 amended: only an unparsable response is isolated to its item —
the loop stores the zero-confidence fallback for it and continues with
the remaining items — while a network error, timeout or HTTP error on
the Advisor call propagates and aborts the whole batch, whose registry
is then not updated at all. -/
theorem advisor_failure_isolation (allowed : List String) (jp : String → Option RawObj)
    (pw : String → FileWorld) (net : String → AdvisorNet) (s limit : Nat)
    (rel : String) (it : Item) (rest : List (String × Item)) (resp : String)
    (h1 : it.status = Status.candidate) (h2 : it.suggestion = none)
    (hp : it.preview ≠ none)
    (hnb : pyFind (pyStrip resp.data) '{' = -1)
    (hlim : s + 1 < limit) :
    suggestLoop allowed jp pw (fun r => if r = rel then AdvisorNet.netError else net r)
      s limit ((rel, it) :: rest) = Except.error () ∧
    suggestLoop allowed jp pw (fun r => if r = rel then AdvisorNet.ok resp else net r)
      s limit ((rel, it) :: rest) =
      Except.map (fun r => (rel, applySuggestion it (fallbackNoJson it.name)) :: r)
        (suggestLoop allowed jp pw (fun r => if r = rel then AdvisorNet.ok resp else net r)
          (s + 1) limit rest) ∧
    (fallbackNoJson it.name).confidence = 0 := by
  refine ⟨?_, ?_, rfl⟩
  · rw [suggestLoop_cons_fresh _ jp pw _ s limit rel it rest h1 h2 hp]
    simp [ollama_suggest]
  · rw [suggestLoop_cons_fresh _ jp pw _ s limit rel it rest h1 h2 hp]
    rw [if_pos (show rel = rel from rfl)]
    have hcall : ollama_suggest it.name it.ext allowed jp (AdvisorNet.ok resp) =
        Except.ok (fallbackNoJson it.name) := by
      simp only [ollama_suggest]
      rw [if_pos (Or.inl hnb)]
    rw [hcall]
    have hge : ¬ s + 1 ≥ limit := by omega
    exact if_neg hge

/-- Witness for the amended C2 at a concrete two-item batch. -/
theorem advisor_failure_isolation_witness :
    suggestLoop ALLOWED_FOLDERS jpC7 pwC7
      (fun r => if r = "a.txt" then AdvisorNet.netError else netC7 r)
      0 5 [("a.txt", itA), ("b.txt", itB)] = Except.error () ∧
    suggestLoop ALLOWED_FOLDERS jpC7 pwC7
      (fun r => if r = "a.txt" then AdvisorNet.ok "no json here" else netC7 r)
      0 5 [("a.txt", itA), ("b.txt", itB)] =
      Except.map (fun r => ("a.txt", applySuggestion itA (fallbackNoJson itA.name)) :: r)
        (suggestLoop ALLOWED_FOLDERS jpC7 pwC7
          (fun r => if r = "a.txt" then AdvisorNet.ok "no json here" else netC7 r)
          1 5 [("b.txt", itB)]) ∧
    (fallbackNoJson itA.name).confidence = 0 :=
  advisor_failure_isolation ALLOWED_FOLDERS jpC7 pwC7 netC7 0 5 "a.txt" itA
    [("b.txt", itB)] "no json here" rfl rfl (by simp [itA]) (by decide) (by decide)

def itC3 : Item :=
  { name := "a.txt", ext := ".txt", status := Status.candidate, approved := false,
    preview := some pvC7, suggestion := some sugC7, edited_name := "a.txt",
    edited_folder := "_ToSort", done_dest := none }

/-- C3 counterexample: `update_proposals` stores a posted folder that is
neither in the taxonomy nor the fallback bucket — the folder field of a
proposal edit is not validated, so after this operation `editedFolder`
is an arbitrary string. -/
theorem update_proposals_arbitrary_folder_cex :
    ((update_proposals [("a.txt", itC3)] []
        [("folder__a.txt", "Random/NotAllowed")]).head?.map (fun x => x.2.edited_folder)) =
      some "Random/NotAllowed" ∧
    "Random/NotAllowed" ∉ ALLOWED_FOLDERS ∧ "Random/NotAllowed" ≠ "_ToSort" :=
  ⟨rfl, by decide, by decide⟩

/-- C3 amended: the invariant holds on the suggestion-normalization
path — every suggestion a successful Advisor call stores (and hence the
`editedFolder` initialized from it) carries a folder that is a member
of the allowed taxonomy or the fallback bucket — but `update_proposals`
stores the posted folder string without validating it, so the invariant
is not preserved by arbitrary proposal edits. -/
theorem suggestion_folder_in_taxonomy (f e : String) (allowed : List String)
    (jp : String → Option RawObj) (net : AdvisorNet) (sug : Suggestion) (it : Item)
    (h : ollama_suggest f e allowed jp net = .ok sug) :
    (applySuggestion it sug).edited_folder ∈ allowed ∨
      (applySuggestion it sug).edited_folder = "_ToSort" := by
  have hfold : (applySuggestion it sug).edited_folder = sug.suggested_folder := rfl
  rw [hfold]
  cases net with
  | netError => simp [ollama_suggest] at h
  | ok resp =>
    simp only [ollama_suggest] at h
    by_cases hjs : pyFind (pyStrip resp.data) '{' = -1 ∨
        pyRFind (pyStrip resp.data) '}' = -1 ∨
        pyRFind (pyStrip resp.data) '}' ≤ pyFind (pyStrip resp.data) '{'
    · rw [if_pos hjs] at h
      cases h
      exact Or.inr rfl
    · rw [if_neg hjs] at h
      cases hp : jp (String.mk (pySlice (pyStrip resp.data)
          (pyFind (pyStrip resp.data) '{').toNat
          ((pyRFind (pyStrip resp.data) '}').toNat + 1))) with
      | none =>
        rw [hp] at h
        cases h
        exact Or.inr rfl
      | some obj2 =>
        rw [hp] at h
        cases h
        simp only [normalizeObj, normFolder]
        by_cases hmem : obj2.suggested_folder.getD "_ToSort" ∈ allowed
        · exact Or.inl (by rw [if_pos hmem]; exact hmem)
        · exact Or.inr (by rw [if_neg hmem])

/-- Witness for the amended C3 at a concrete successful suggestion. -/
theorem suggestion_folder_in_taxonomy_witness :
    (applySuggestion itC7 sugC7).edited_folder ∈ ALLOWED_FOLDERS ∨
      (applySuggestion itC7 sugC7).edited_folder = "_ToSort" :=
  suggestion_folder_in_taxonomy "a.pdf" ".pdf" ALLOWED_FOLDERS jpC7 (netC7 "a.pdf")
    sugC7 itC7 rfl

def wC9 : FileWorld :=
  ⟨Except.ok (5, "2024-01-01T00:00:00"), Except.ok "h", Except.ok "x", none,
    Except.ok [], Except.ok ([], none), Except.ok [],
    Except.error "cannot identify image file", none⟩

/-- C9 counterexample: a failing image decode is swallowed by a bare
except-pass, so the returned preview carries no note about the failure,
contradicting the claim that every extraction failure is captured as a
notes string on the result. -/
theorem image_failure_not_noted_cex :
    (extract_preview ".jpg" wC9).notes = "" ∧
    wC9.imageR = Except.error "cannot identify image file" :=
  ⟨rfl, rfl⟩

/-- C9 amended: the extractor is a total function of its inputs (no
failure propagates), and a parse or read failure in the hash, text,
json, docx, xlsx, pdf or svg branch is captured as a notes string on
the result, while a stat failure or an image-decode failure is
silently ignored — the result then carries no note (and, for stat, no
size either). -/
theorem extraction_failures_noted (w : FileWorld) (m t : String) (st : Nat × String) :
    (extract_preview ".exe" { w with hashR := Except.error m }).notes = "hash failed: " ++ m ∧
    (extract_preview ".txt" { w with readTextR := Except.error m }).notes = "read failed: " ++ m ∧
    (extract_preview ".json" { w with readTextR := Except.error m }).notes = "read failed: " ++ m ∧
    (extract_preview ".docx" { w with docxR := Except.error m }).notes = "docx parse failed: " ++ m ∧
    (extract_preview ".xlsx" { w with xlsxR := Except.error m }).notes = "xlsx parse failed: " ++ m ∧
    (extract_preview ".pdf" { w with pdfR := Except.error m }).notes = "pdf parse failed: " ++ m ∧
    (extract_preview ".svg" { w with readTextR := Except.error m }).notes = "svg read failed: " ++ m ∧
    (extract_preview ".jpg" { w with imageR := Except.error m, statR := Except.ok st }).notes = "" ∧
    (extract_preview ".txt" { w with statR := Except.error m, readTextR := Except.ok t }).notes = "" ∧
    (extract_preview ".txt" { w with statR := Except.error m, readTextR := Except.ok t }).size = none :=
  ⟨rfl, rfl, rfl, rfl, rfl, rfl, rfl, rfl, rfl, rfl⟩

def longNameC4 : String := String.mk (List.replicate 200 'a')

set_option maxRecDepth 8000 in
/-- C4 counterexample: a 200-character suggested name without the
extension is truncated to the 180-character cap by `safe_filename`;
forcing the extension onto the stem then sanitizes the 184-character
string `stem + ext`, whose truncation cuts the extension off again, so
the normalized name does not end with the original extension. -/
theorem long_name_loses_extension_cex :
    endsWithCI (normSugName (some longNameC4) "x.pdf" ".pdf") ".pdf" = false ∧
    normSugName (some longNameC4) "x.pdf" ".pdf" = String.mk (List.replicate 180 'a') := by
  constructor
  · decide
  · decide

/-- Cleanliness of an extension: nonempty, no sanitized or whitespace
characters, and not ending in a dot, so that every `safe_filename`
stage leaves an occurrence of it at the end of a string intact. -/
def extOK (e : List Char) : Prop :=
  e ≠ [] ∧ (∀ c ∈ e, isBadChar c = false ∧ isPySpace c = false) ∧ e.getLast? ≠ some '.'

theorem sanitize1_append_clean (x e : List Char) (he : ∀ c ∈ e, isBadChar c = false) :
    sanitize1 (x ++ e) = sanitize1 x ++ e := by
  unfold sanitize1
  rw [List.map_append]
  congr 1
  calc e.map (fun c => if isBadChar c then '_' else c)
      = e.map id := List.map_congr_left (fun c hc => by rw [he c hc]; rfl)
    _ = e := List.map_id e

theorem collapseWSAux_id (e : List Char) (he : ∀ c ∈ e, isPySpace c = false) :
    ∀ b : Bool, collapseWSAux b e = e := by
  induction e with
  | nil => intro b; rfl
  | cons a as ih =>
    intro b
    unfold collapseWSAux
    rw [he a (List.mem_cons_self a as)]
    simp only [Bool.false_eq_true, if_false]
    rw [ih (fun c hc => he c (List.mem_cons_of_mem a hc)) false]

theorem collapseWSAux_append_clean (x e : List Char) (he : ∀ c ∈ e, isPySpace c = false) :
    ∀ b : Bool, collapseWSAux b (x ++ e) = collapseWSAux b x ++ e := by
  induction x with
  | nil => intro b; rw [List.nil_append]; exact collapseWSAux_id e he b
  | cons c cs ih =>
    intro b
    rw [List.cons_append]
    unfold collapseWSAux
    by_cases hc : isPySpace c = true
    · rw [hc]
      simp only [if_true]
      by_cases hb : b = true
      · rw [hb]
        simp only [if_true]
        exact ih true
      · rw [Bool.eq_false_iff.mpr hb]
        simp only [Bool.false_eq_true, if_false, List.cons_append]
        rw [ih true]
    · rw [Bool.eq_false_iff.mpr hc]
      simp only [Bool.false_eq_true, if_false, List.cons_append]
      rw [ih false]

theorem lstrip_append_clean (z e : List Char) (hne : e ≠ [])
    (he : ∀ c ∈ e, isPySpace c = false) :
    ∃ w, (z ++ e).dropWhile isPySpace = w ++ e := by
  induction z with
  | nil =>
    refine ⟨[], ?_⟩
    rw [List.nil_append]
    cases e with
    | nil => exact absurd rfl hne
    | cons d e2 =>
      rw [List.dropWhile_cons, he d (List.mem_cons_self d e2)]
      rfl
  | cons c cs ih =>
    rw [List.cons_append, List.dropWhile_cons]
    by_cases hc : isPySpace c = true
    · rw [hc]
      simpa using ih
    · rw [Bool.eq_false_iff.mpr hc]
      exact ⟨c :: cs, by simp⟩

theorem rstripBy_append_keep (p : Char → Bool) (w e : List Char) (hne : e ≠ [])
    (hlast : ∀ d, e.getLast? = some d → p d = false) :
    rstripBy p (w ++ e) = w ++ e := by
  unfold rstripBy
  rw [List.reverse_append]
  have hrev : ∃ d tl, e.reverse = d :: tl := by
    cases he : e.reverse with
    | nil => exact absurd (List.reverse_eq_nil_iff.mp he) hne
    | cons d tl => exact ⟨d, tl, rfl⟩
  obtain ⟨d, tl, he⟩ := hrev
  have hd : e.getLast? = some d := by
    rw [← List.head?_reverse, he]
    rfl
  rw [he, List.cons_append, List.dropWhile_cons, hlast d hd]
  simp only [Bool.false_eq_true, if_false]
  rw [← List.cons_append, ← he, ← List.reverse_append]
  rw [List.reverse_reverse]

theorem safeStem_append_clean (x e : List Char) (hne : e ≠ [])
    (hgood : ∀ c ∈ e, isBadChar c = false ∧ isPySpace c = false)
    (hlast : e.getLast? ≠ some '.') :
    ∃ w, safeStem (x ++ e) = w ++ e := by
  have hws : ∀ c ∈ e, isPySpace c = false := fun c hc => (hgood c hc).2
  have hlastWS : ∀ d, e.getLast? = some d → isPySpace d = false :=
    fun d hd => hws d (List.mem_of_getLast?_eq_some hd)
  have hlastDS : ∀ d, e.getLast? = some d → isDotSpace d = false := by
    intro d hd
    have h1 : isPySpace d = false := hlastWS d hd
    have h2 : d ≠ '.' := fun hdd => hlast (hdd ▸ hd)
    have h3 : d ≠ ' ' := by
      intro hdd
      rw [hdd] at h1
      simp [isPySpace] at h1
    simp [isDotSpace, h2, h3]
  unfold safeStem
  rw [sanitize1_append_clean x e (fun c hc => (hgood c hc).1)]
  unfold collapseWS
  rw [collapseWSAux_append_clean (sanitize1 x) e hws false]
  unfold pyStrip
  obtain ⟨w1, hw1⟩ := lstrip_append_clean (collapseWSAux false (sanitize1 x)) e hne hws
  rw [hw1, rstripBy_append_keep isPySpace w1 e hne hlastWS,
    rstripBy_append_keep isDotSpace w1 e hne hlastDS]
  exact ⟨w1, rfl⟩

theorem safe_filename_keeps_suffix (x e : List Char) (hne : e ≠ [])
    (hgood : ∀ c ∈ e, isBadChar c = false ∧ isPySpace c = false)
    (hlast : e.getLast? ≠ some '.')
    (hlen : (safeStem (x ++ e)).length ≤ 180) :
    ∃ w, safe_filename (x ++ e) = w ++ e := by
  obtain ⟨w, hw⟩ := safeStem_append_clean x e hne hgood hlast
  exact ⟨w, by unfold safe_filename; rw [List.take_of_length_le hlen, hw]⟩

theorem isSuffixOf_append_self (e w : List Char) : e.isSuffixOf (w ++ e) = true := by
  rw [List.isSuffixOf_iff_suffix]
  exact ⟨w, rfl⟩

/-- C4 amended: the normalized suggested name ends with the original
extension (in the case-insensitive sense the source checks) for every
clean extension, provided the sanitized stem-plus-extension does not
exceed the 180-character truncation cap; past that cap the truncation
cuts the forced extension off, as the counterexample shows. -/
theorem normalized_name_keeps_extension (rawName : Option String) (filename ext : String)
    (hext : extOK ext.data)
    (hlen : (safeStem (pyStem (safe_filename ((rawName.getD filename).data)) ++
      ext.data)).length ≤ 180) :
    endsWithCI (normSugName rawName filename ext) ext = true := by
  unfold normSugName
  by_cases hends : endsWithCI (safeFilenameStr (rawName.getD filename)) ext = true
  · rw [if_pos hends]
    exact hends
  · rw [if_neg hends]
    obtain ⟨hne, hgood, hlast⟩ := hext
    obtain ⟨w, hw⟩ := safe_filename_keeps_suffix
      (pyStem (safe_filename ((rawName.getD filename).data))) ext.data hne hgood hlast hlen
    have h1 : ∀ s : String, (safeFilenameStr s).data = safe_filename s.data := fun _ => rfl
    have h3 : ∀ s : String, (pyStemStr s).data = pyStem s.data := fun _ => rfl
    have hdata : (safeFilenameStr (pyStemStr (safeFilenameStr (rawName.getD filename)) ++ ext)).data
        = safe_filename (pyStem (safe_filename ((rawName.getD filename).data)) ++ ext.data) := by
      rw [h1, String.data_append, h3, h1]
    unfold endsWithCI
    rw [hdata, hw, List.map_append]
    exact isSuffixOf_append_self (ext.data.map Char.toLower) (w.map Char.toLower)

/-- Witness for the amended C4 at a concrete suggested name. -/
theorem normalized_name_keeps_extension_witness :
    endsWithCI (normSugName (some "My Report") "x.pdf" ".pdf") ".pdf" = true :=
  normalized_name_keeps_extension (some "My Report") "x.pdf" ".pdf"
    (by refine ⟨by decide, by decide, by decide⟩) (by decide)

/-- Sanity check of the sanitization pipeline on a representative input. -/
theorem safe_filename_sanity : safe_filename "  a<b>c  d. ".data = "a_b_c d".data := by decide

/-- Sanity check of the stem computation. -/
theorem pyStem_sanity : pyStem "archive.tar".data = "archive".data ∧
    pyStem "noext".data = "noext".data := by
  exact ⟨by decide, by decide⟩

/-- Sanity check of the float conversion model. -/
theorem pyFloatOfString_sanity : pyFloatOfString " -0.25 " = some (-(1/4) : Rat) ∧
    pyFloatOfString "high" = none := by
  constructor
  · simp [pyFloatOfString, pyStrip, rstripBy, isPySpace, digitsToNat]
    norm_num
  · simp [pyFloatOfString, pyStrip, rstripBy, isPySpace]

/-- Sanity check of the case-insensitive extension test. -/
theorem endsWithCI_sanity : endsWithCI "Report.PDF" ".pdf" = true := by decide

end OneDriveOrganizer
